import Mathlib

/-!
Shallow embedding of the Youth Impact tutoring dashboard (src/app.py):
the data model, the sidebar filter engine, the aggregation family
(weekly sums, group-by means, top-N, pivot tables, KPI totals) and the
CSV export/reload round trip.

Modelling conventions:
- a dataframe is a `List Row` (order is significant, as in pandas);
- dates are modelled by their ISO date strings, whose lexicographic
  order agrees with chronological order, so `pd.Timestamp` comparisons
  become `String` comparisons;
- integer metric columns are `Nat`, float columns are `ℚ`;
- a pandas cell that can be NaN is an `Option`.
-/

/-- One row of the loaded dataframe: the source columns of
`final_output.csv` plus the derived `week_start` column appended by
`load_data` (app.py lines 83-100). -/
structure Row where
  week : String
  district : String
  block : String
  school : String
  teachers_registered : Nat
  baseline_assessments : Nat
  endline_assessments : Nat
  baseline_average_level : ℚ
  endline_average_level : ℚ
  tutoring_calls : Nat
  week_start : String
deriving DecidableEq, Repr

abbrev Table := List Row

/-- Derivation of the `week_start` column in `load_data` (app.py line
99): `df.week.str.split('/').str[0]`, i.e. the part of the raw week
string before the first slash (the whole string when no slash occurs). -/
def weekStartOf (w : String) : String :=
  ⟨w.data.takeWhile (fun c => c != '/')⟩

/-- Strict lexicographic comparison of char lists by code point, the
order pandas uses for strings and (via ISO date strings) timestamps. -/
def lexLt : List Char → List Char → Bool
  | [], [] => false
  | [], _ :: _ => true
  | _ :: _, [] => false
  | a :: as, b :: bs => if a < b then true else if a = b then lexLt as bs else false

/-- Strict string comparison, `a < b` on code points. -/
def strLt (a b : String) : Bool := lexLt a.data b.data

/-- String comparison `a ≤ b`, as the negation of `b < a`. -/
def strLe (a b : String) : Bool := !strLt b a

/-- Propositional form of `strLt`. -/
def strLtP (a b : String) : Prop := strLt a b = true

/-- Propositional form of `strLe`. -/
def strLeP (a b : String) : Prop := strLe a b = true

instance : DecidableRel strLtP := fun a b => instDecidableEqBool (strLt a b) true

instance : DecidableRel strLeP := fun a b => instDecidableEqBool (strLe a b) true

/-- App.py lines 147-154: the date-range filter.  When
`start_date > end_date` the code shows a sidebar error and skips the
range filter; otherwise it keeps rows with
`start_date ≤ week_start ≤ end_date`. -/
def dateClause (s e : String) (t : Table) : Table :=
  if strLt e s then t
  else t.filter fun r => strLe s r.week_start && strLe r.week_start e

/-- App.py line 148: the condition under which the sidebar error
"Start date cannot be after end date." is shown. -/
def range_warning (s e : String) : Bool := strLt e s

/-- App.py lines 157-158: `if districts: filtered_df =
filtered_df[filtered_df.district.isin(districts)]`.  An empty
selection applies no restriction. -/
def districtClause (ds : List String) (t : Table) : Table :=
  if ds.isEmpty then t else t.filter fun r => ds.contains r.district

/-- App.py lines 161-162: the block multiselect filter. -/
def blockClause (bs : List String) (t : Table) : Table :=
  if bs.isEmpty then t else t.filter fun r => bs.contains r.block

/-- App.py lines 165-166: the school multiselect filter. -/
def schoolClause (ss : List String) (t : Table) : Table :=
  if ss.isEmpty then t else t.filter fun r => ss.contains r.school

/-- App.py lines 144-166: the sidebar filter pipeline, applied in the
fixed order date range, district, block, school. -/
def filtered_df (df : Table) (districts blocks schools : List String)
    (start_date end_date : String) : Table :=
  schoolClause schools (blockClause blocks (districtClause districts
    (dateClause start_date end_date df)))

/-- The date-range row predicate: `week_start` within
`[start_date, end_date]` inclusive. -/
def inDateRange (s e : String) (r : Row) : Bool :=
  strLe s r.week_start && strLe r.week_start e

/-- The row predicate of the three multiselect filters together: each
selection is either empty (no restriction) or contains the row's
value. -/
def setsPred (districts blocks schools : List String) (r : Row) : Bool :=
  (districts.isEmpty || districts.contains r.district) &&
  (blocks.isEmpty || blocks.contains r.block) &&
  (schools.isEmpty || schools.contains r.school)

/-- The row predicate the whole sidebar filter implements when the
date range is valid. -/
def filterPred (districts blocks schools : List String) (s e : String) (r : Row) : Bool :=
  inDateRange s e r && setsPred districts blocks schools r

/-- App.py line 193: `int(filtered_df.teachers_registered.sum())`. -/
def total_teachers (df : Table) : Nat := (df.map (·.teachers_registered)).sum

/-- App.py line 197: `int(filtered_df.baseline_assessments.sum())`. -/
def total_baseline (df : Table) : Nat := (df.map (·.baseline_assessments)).sum

/-- App.py line 201: `int(filtered_df.endline_assessments.sum())`. -/
def total_endline (df : Table) : Nat := (df.map (·.endline_assessments)).sum

/-- App.py line 205: `int(filtered_df.tutoring_calls.sum())`. -/
def total_tutoring (df : Table) : Nat := (df.map (·.tutoring_calls)).sum

/-- Distinct values of a column in pandas groupby key order: the
distinct values sorted ascending (`groupby` sorts keys by default). -/
def distinctSorted (df : Table) (key : Row → String) : List String :=
  List.insertionSort strLeP (df.map key).dedup

/-- Sum of `val` over the rows of the group of `k`. -/
def sum_for (df : Table) (key : Row → String) (val : Row → Nat) (k : String) : Nat :=
  ((df.filter fun r => key r == k).map val).sum

/-- `df.groupby(key)[val].sum().reset_index()`: one output row per
distinct key value, keys ascending, each paired with its group sum. -/
def group_sum (df : Table) (key : Row → String) (val : Row → Nat) :
    List (String × Nat) :=
  (distinctSorted df key).map fun k => (k, sum_for df key val k)

/-- App.py lines 232-238: weekly teachers-registered sums (the
trailing `sort_values('week_start')` is a no-op because groupby
already sorts the keys). -/
def weekly_teachers (df : Table) : List (String × Nat) :=
  group_sum df (·.week_start) (·.teachers_registered)

/-- App.py lines 544-550: weekly tutoring-call sums. -/
def weekly_tutoring_calls (df : Table) : List (String × Nat) :=
  group_sum df (·.week_start) (·.tutoring_calls)

/-- Descending order on summed calls, as used by
`nlargest(10, 'tutoring_calls')`. -/
def byCallsDesc (a b : String × Nat) : Prop := b.2 ≤ a.2

instance : DecidableRel byCallsDesc := fun a b => Nat.decLe b.2 a.2

instance : IsTotal (String × Nat) byCallsDesc := ⟨fun a b => Nat.le_total b.2 a.2⟩

instance : IsTrans (String × Nat) byCallsDesc := ⟨fun _ _ _ h h2 => Nat.le_trans h2 h⟩

/-- Ascending order on summed calls, as used by
`sort_values('tutoring_calls', ascending=True)`. -/
def byCallsAsc (a b : String × Nat) : Prop := a.2 ≤ b.2

instance : DecidableRel byCallsAsc := fun a b => Nat.decLe a.2 b.2

instance : IsTotal (String × Nat) byCallsAsc := ⟨fun a b => Nat.le_total a.2 b.2⟩

instance : IsTrans (String × Nat) byCallsAsc := ⟨fun _ _ _ h h2 => Nat.le_trans h h2⟩

/-- App.py lines 571-578: group tutoring calls by school, keep
`nlargest(10, 'tutoring_calls')` (with pandas keep='first' this is a
stable descending sort followed by `take 10`), then re-sort ascending.
The re-sort models `sort_values` faithfully: numpy's quicksort falls
back to a stable insertion sort on fewer than 16 elements. -/
def top_schools_tutoring (df : Table) : List (String × Nat) :=
  List.insertionSort byCallsAsc
    ((List.insertionSort byCallsDesc
      (group_sum df (·.school) (·.tutoring_calls))).take 10)

/-- Number of rows in the group of `k`. -/
def count_for (df : Table) (key : Row → String) (k : String) : Nat :=
  (df.filter fun r => key r == k).length

/-- Mean of `val` over the group of `k`; groups are nonempty because
keys are drawn from the data, so no division by zero occurs. -/
def mean_for (df : Table) (key : Row → String) (val : Row → ℚ) (k : String) : ℚ :=
  ((df.filter fun r => key r == k).map val).sum / count_for df key k

/-- `df.groupby(key)[[baseline, endline]].mean().reset_index()`. -/
def level_by (df : Table) (key : Row → String) : List (String × ℚ × ℚ) :=
  (distinctSorted df key).map fun k =>
    (k, mean_for df key (·.baseline_average_level) k,
        mean_for df key (·.endline_average_level) k)

/-- App.py lines 476-481: District branch of the Tab-3 learning-level
comparison; all district groups appear. -/
def level_df_district (df : Table) : List (String × ℚ × ℚ) := level_by df (·.district)

/-- App.py lines 495-500: Block branch of the Tab-3 comparison; all
block groups appear. -/
def level_df_block (df : Table) : List (String × ℚ × ℚ) := level_by df (·.block)

/-- Descending order on mean baseline level, as used by
`nlargest(20, 'baseline_average_level')`. -/
def byBaselineDesc (a b : String × ℚ × ℚ) : Prop := b.2.1 ≤ a.2.1

instance : DecidableRel byBaselineDesc :=
  fun a b => inferInstanceAs (Decidable (b.2.1 ≤ a.2.1))

instance : IsTotal (String × ℚ × ℚ) byBaselineDesc := ⟨fun a b => le_total b.2.1 a.2.1⟩

instance : IsTrans (String × ℚ × ℚ) byBaselineDesc := ⟨fun _ _ _ h h2 => le_trans h2 h⟩

/-- App.py lines 514-521: School branch of the Tab-3 comparison —
per-school means, of which only `nlargest(20, 'baseline_average_level')`
is kept for the chart and the table. -/
def level_df_school (df : Table) : List (String × ℚ × ℚ) :=
  (List.insertionSort byBaselineDesc (level_by df (·.school))).take 20

/-- One cell of the Tab-6 pivot-table explorer: the sum of the value
field over the rows matching the cell's row and column keys; a cell
with no matching rows is NaN (`none`), because app.py line 719 calls
`pd.pivot_table` without a `fill_value`. -/
def pivot_cell (df : Table) (rowF colF : Row → String) (valF : Row → Nat)
    (r c : String) : Option Nat :=
  let m := df.filter fun x => rowF x == r && colF x == c
  if m.isEmpty then none else some ((m.map valF).sum)

/-- App.py lines 719-725:
`pd.pivot_table(filtered_df, index=rowF, columns=colF, values=valF,
aggfunc=np.sum)` — the matrix indexed by the sorted distinct row-field
values and the sorted distinct column-field values. -/
def pivot_data (df : Table) (rowF colF : Row → String) (valF : Row → Nat) :
    List (String × List (String × Option Nat)) :=
  (distinctSorted df rowF).map fun r =>
    (r, (distinctSorted df colF).map fun c => (c, pivot_cell df rowF colF valF r c))

/-- The decimal digit character for `d < 10`. -/
def digitChr (d : Nat) : Char := Char.ofNat (48 + d)

/-- Code-point value of a decimal digit character. -/
def digitVal (c : Char) : Nat := c.toNat - 48

/-- Whether `c` is one of the characters '0' through '9'. -/
def isDigitCh (c : Char) : Bool := decide (48 ≤ c.toNat) && decide (c.toNat ≤ 57)

/-- Big-endian decimal digits of `n`, for positive `n`; `fuel` bounds
the recursion and any `fuel ≥ n` yields the digits of `n`. -/
def natDigitsAux : Nat → Nat → List Char
  | 0, _ => []
  | _ + 1, 0 => []
  | fuel + 1, n + 1 => natDigitsAux fuel ((n + 1) / 10) ++ [digitChr ((n + 1) % 10)]

/-- Decimal representation of a natural number, the way `to_csv`
writes an int64 cell. -/
def natDigits (n : Nat) : List Char := if n = 0 then ['0'] else natDigitsAux n n

/-- An integer cell of the exported CSV. -/
def natCell (n : Nat) : String := ⟨natDigits n⟩

/-- Numeric value of a digit string (big-endian fold). -/
def chrsToNat (cs : List Char) : Nat := cs.foldl (fun a c => 10 * a + digitVal c) 0

/-- How `read_csv` types an integer cell: at least one character and
all of them decimal digits. -/
def parseNatChs (cs : List Char) : Option Nat :=
  if cs.isEmpty then none
  else if cs.all isDigitCh then some (chrsToNat cs) else none

/-- Integer-cell parsing on strings. -/
def parseNatStr (s : String) : Option Nat := parseNatChs s.data

/-- Serialized form of a float cell.  `to_csv` writes float64 values
in a shortest decimal form that `read_csv` parses back to the bitwise
identical value; we model float values as rationals and their
serialization as sign, numerator and denominator, which has the same
exact-round-trip property. -/
def ratCell (q : ℚ) : String :=
  ⟨(if q.num < 0 then ['-'] else []) ++ natDigits q.num.natAbs ++ '/' :: natDigits q.den⟩

/-- Parse the part of a float cell after the optional sign: the digits
before the slash as the numerator, the digits after it as the
denominator. -/
def parsePosRat (cs : List Char) : Option ℚ :=
  if (cs.dropWhile (fun c => c != '/')).head? = some '/' then
    (parseNatChs (cs.takeWhile (fun c => c != '/'))).bind fun n =>
      (parseNatChs (cs.dropWhile (fun c => c != '/')).tail).bind fun d =>
        if d = 0 then none else some ((n : ℚ) / (d : ℚ))
  else none

/-- Float-cell parsing on strings: optional leading minus sign, then
numerator and denominator. -/
def parseRatStr (s : String) : Option ℚ :=
  if s.data.head? = some '-' then (parsePosRat s.data.tail).map (fun q => -q)
  else parsePosRat s.data

/-- Column order of the exported CSV: the source columns of
`final_output.csv` followed by the derived `week_start` column. -/
def csvHeader : List String :=
  ["week", "district", "block", "school", "teachers_registered",
   "baseline_assessments", "endline_assessments", "baseline_average_level",
   "endline_average_level", "tutoring_calls", "week_start"]

/-- One record of the export (app.py line 737,
`filtered_df.to_csv(index=False)`): each cell is one field, already
split at the comma level (`to_csv` quoting and `read_csv` unquoting
are exact inverses and are abstracted away). -/
def encodeRow (r : Row) : List String :=
  [r.week, r.district, r.block, r.school, natCell r.teachers_registered,
   natCell r.baseline_assessments, natCell r.endline_assessments,
   ratCell r.baseline_average_level, ratCell r.endline_average_level,
   natCell r.tutoring_calls, r.week_start]

/-- App.py lines 737-743: the downloadable UTF-8 CSV of the filtered
table — a header record followed by one record per row, in table
order. -/
def csv_data (df : Table) : List (List String) := csvHeader :: df.map encodeRow

/-- Typing of one record on reload: string columns stay strings,
integer and float columns are parsed, and the loaded week_start cell
is ignored because `load_data` overwrites that column with the value
derived from the week column (app.py line 99). -/
def parseRow (cells : List String) : Option Row :=
  match cells with
  | [w, d, b, s, c1, c2, c3, l1, l2, c4, _ws] =>
    match parseNatStr c1, parseNatStr c2, parseNatStr c3,
          parseRatStr l1, parseRatStr l2, parseNatStr c4 with
    | some t, some ba, some ea, some bl, some el, some tc =>
      some ⟨w, d, b, s, t, ba, ea, bl, el, tc, weekStartOf w⟩
    | _, _, _, _, _, _ => none
  | _ => none

/-- Parse every data record, failing if any record fails. -/
def parseRows : List (List String) → Option Table
  | [] => some []
  | cells :: rest =>
    match parseRow cells, parseRows rest with
    | some r, some rs => some (r :: rs)
    | _, _ => none

/-- App.py lines 83-100 applied to an exported file: read the CSV
(a header record plus data records) and derive the `week_start`
column.  An empty or mis-shaped file yields `none` (the
`FileNotFoundError` / parse-failure path that halts the session). -/
def load_data (csv : List (List String)) : Option Table :=
  match csv with
  | [] => none
  | h :: rows => if h = csvHeader then parseRows rows else none

/-- A row whose `week_start` is derived from its week string, as every
row produced by the loader is. -/
def sampleRow (w d b sc : String) (t ba ea : Nat) (bl el : ℚ) (calls : Nat) : Row :=
  ⟨w, d, b, sc, t, ba, ea, bl, el, calls, weekStartOf w⟩

/-- A small example table used to instantiate the theorems. -/
def exTable : Table :=
  [sampleRow "2024-01-01/2024-01-07" "A" "B1" "S1" 5 2 1 1 2 10,
   sampleRow "2024-01-08/2024-01-14" "A" "B1" "S2" 3 1 0 1 2 6,
   sampleRow "2024-01-01/2024-01-07" "B" "B2" "S3" 4 2 2 2 3 7]

/-- A two-row table whose district/block combinations are incomplete,
exercising the pivot table on a combination with no matching rows. -/
def exPivot : Table :=
  [sampleRow "2024-01-01/2024-01-07" "A" "X" "S1" 5 2 1 1 2 10,
   sampleRow "2024-01-01/2024-01-07" "B" "Y" "S2" 7 1 0 1 2 6]

/-- A table with ten distinct schools, for the top-10 ranking. -/
def exTen : Table :=
  [sampleRow "2024-01-01/2024-01-07" "A" "X" "S0" 1 1 1 1 1 3,
   sampleRow "2024-01-01/2024-01-07" "A" "X" "S1" 1 1 1 1 1 9,
   sampleRow "2024-01-01/2024-01-07" "A" "X" "S2" 1 1 1 1 1 4,
   sampleRow "2024-01-01/2024-01-07" "A" "X" "S3" 1 1 1 1 1 9,
   sampleRow "2024-01-01/2024-01-07" "A" "X" "S4" 1 1 1 1 1 2,
   sampleRow "2024-01-01/2024-01-07" "A" "X" "S5" 1 1 1 1 1 7,
   sampleRow "2024-01-01/2024-01-07" "A" "X" "S6" 1 1 1 1 1 0,
   sampleRow "2024-01-01/2024-01-07" "A" "X" "S7" 1 1 1 1 1 8,
   sampleRow "2024-01-01/2024-01-07" "A" "X" "S8" 1 1 1 1 1 6,
   sampleRow "2024-01-01/2024-01-07" "A" "X" "S9" 1 1 1 1 1 5]

/-! ### Order properties of the string comparison -/

theorem lexLt_irrefl : ∀ l, lexLt l l = false
  | [] => rfl
  | a :: as => by simp [lexLt, lexLt_irrefl as]

theorem lexLt_asymm : ∀ l₁ l₂, lexLt l₁ l₂ = true → lexLt l₂ l₁ = true → False
  | [], [], h₁, _ => by simp [lexLt] at h₁
  | [], _ :: _, _, h₂ => by simp [lexLt] at h₂
  | _ :: _, [], h₁, _ => by simp [lexLt] at h₁
  | a :: as, b :: bs, h₁, h₂ => by
    by_cases hab : a < b
    · have hba : ¬ b < a := lt_asymm hab
      have hne : ¬ b = a := fun h => absurd (h ▸ hab) (lt_irrefl a)
      simp [lexLt, hba, hne] at h₂
    · by_cases heq : a = b
      · subst heq
        simp [lexLt, hab] at h₁ h₂
        exact lexLt_asymm as bs h₁ h₂
      · simp [lexLt, hab, heq] at h₁

theorem lexLt_trans : ∀ l₁ l₂ l₃,
    lexLt l₁ l₂ = true → lexLt l₂ l₃ = true → lexLt l₁ l₃ = true
  | [], [], _, h₁, _ => by simp [lexLt] at h₁
  | [], _ :: _, [], _, h₂ => by simp [lexLt] at h₂
  | [], _ :: _, _ :: _, _, _ => rfl
  | _ :: _, [], _, h₁, _ => by simp [lexLt] at h₁
  | _ :: _, _ :: _, [], _, h₂ => by simp [lexLt] at h₂
  | a :: as, b :: bs, c :: cs, h₁, h₂ => by
    by_cases hab : a < b
    · by_cases hbc : b < c
      · simp [lexLt, lt_trans hab hbc]
      · by_cases hbc' : b = c
        · subst hbc'
          simp [lexLt, hab]
        · simp [lexLt, hbc, hbc'] at h₂
    · by_cases hab' : a = b
      · subst hab'
        by_cases hac : a < c
        · simp [lexLt, hac]
        · by_cases hac' : a = c
          · subst hac'
            simp [lexLt, hac] at h₁ h₂ ⊢
            exact lexLt_trans as bs cs h₁ h₂
          · simp [lexLt, hac, hac'] at h₂
      · simp [lexLt, hab, hab'] at h₁

theorem lexLt_trichotomy : ∀ l₁ l₂, lexLt l₁ l₂ = true ∨ l₁ = l₂ ∨ lexLt l₂ l₁ = true
  | [], [] => Or.inr (Or.inl rfl)
  | [], _ :: _ => Or.inl rfl
  | _ :: _, [] => Or.inr (Or.inr rfl)
  | a :: as, b :: bs => by
    rcases lt_trichotomy a b with h | h | h
    · left
      simp [lexLt, h]
    · subst h
      rcases lexLt_trichotomy as bs with h' | h' | h'
      · left
        simp [lexLt, h']
      · right
        left
        rw [h']
      · right
        right
        simp [lexLt, h']
    · right
      right
      simp [lexLt, h]

theorem strLt_asymm {a b : String} (h₁ : strLt a b = true) (h₂ : strLt b a = true) :
    False :=
  lexLt_asymm a.data b.data h₁ h₂

theorem strEq_of_data_eq {a b : String} (h : a.data = b.data) : a = b :=
  congrArg String.mk h

theorem strLeP_total (a b : String) : strLeP a b ∨ strLeP b a := by
  unfold strLeP strLe
  rcases lexLt_trichotomy a.data b.data with h | h | h
  · left
    have : strLt b a = false := by
      cases hb : strLt b a
      · rfl
      · exact absurd (lexLt_asymm a.data b.data h hb) (fun f => f)
    simp [this]
  · left
    have hab : a = b := strEq_of_data_eq h
    subst hab
    simp [strLt, lexLt_irrefl]
  · right
    have : strLt a b = false := by
      cases hb : strLt a b
      · rfl
      · exact absurd (lexLt_asymm b.data a.data h hb) (fun f => f)
    simp [this]

theorem strLeP_trans {a b c : String} (h₁ : strLeP a b) (h₂ : strLeP b c) :
    strLeP a c := by
  unfold strLeP strLe strLt at h₁ h₂ ⊢
  rw [Bool.not_eq_true'] at h₁ h₂ ⊢
  by_contra hca
  rw [Bool.not_eq_false] at hca
  rcases lexLt_trichotomy a.data b.data with h | h | h
  · have hcb : lexLt c.data b.data = true := lexLt_trans _ _ _ hca h
    rw [hcb] at h₂
    cases h₂
  · rw [h] at hca
    rw [hca] at h₂
    cases h₂
  · rw [h] at h₁
    cases h₁

theorem strLtP_of_strLeP_of_ne {a b : String} (h : strLeP a b) (hne : a ≠ b) :
    strLtP a b := by
  rcases lexLt_trichotomy a.data b.data with h' | h' | h'
  · exact h'
  · exact absurd (strEq_of_data_eq h') hne
  · unfold strLeP strLe strLt at h
    rw [Bool.not_eq_true'] at h
    rw [h'] at h
    cases h

theorem strLeP_of_strLtP {a b : String} (h : strLtP a b) : strLeP a b := by
  unfold strLeP strLe
  rw [Bool.not_eq_true']
  unfold strLt
  cases hb : lexLt b.data a.data
  · rfl
  · exact (lexLt_asymm a.data b.data h hb).elim

instance : IsTotal String strLeP := ⟨strLeP_total⟩

instance : IsTrans String strLeP := ⟨fun _ _ _ => strLeP_trans⟩

/-! ### Generic list helpers -/

theorem ite_filter_or {α} (c : Bool) (p : α → Bool) (t : List α) :
    (if c = true then t else t.filter p) = t.filter (fun a => c || p a) := by
  cases c
  · simp
  · simp

theorem sum_map_filter_not {α} (p : α → Bool) (val : α → Nat) (l : List α) :
    ((l.filter p).map val).sum + ((l.filter fun a => !p a).map val).sum =
      (l.map val).sum := by
  have hperm : List.Perm (((l.filter p) ++ (l.filter fun a => !p a)).map val) (l.map val) :=
    (List.filter_append_perm p l).map val
  rw [← hperm.sum_eq, List.map_append, List.sum_append]

theorem pair_sublist_of_pairwise {α} {r : α → α → Prop}
    (hasymm : ∀ x y, r x y → r y x → False) :
    ∀ (l : List α), l.Pairwise r → ∀ x y, x ∈ l → y ∈ l → r x y →
      List.Sublist [x, y] l
  | [], _, x, _, hx, _, _ => absurd hx (List.not_mem_nil x)
  | a :: t, hl, x, y, hx, hy, hxy => by
    rw [List.pairwise_cons] at hl
    rcases List.mem_cons.mp hx with hxa | hx'
    · subst hxa
      rcases List.mem_cons.mp hy with hya | hy'
      · subst hya
        exact (hasymm _ _ hxy hxy).elim
      · exact List.Sublist.cons₂ _ (List.singleton_sublist.mpr hy')
    · rcases List.mem_cons.mp hy with hya | hy'
      · subst hya
        exact (hasymm _ _ (hl.1 x hx') hxy).elim
      · exact List.Sublist.cons a (pair_sublist_of_pairwise hasymm t hl.2 x y hx' hy' hxy)

theorem eq_of_pair_sublists_nodup {α} :
    ∀ {l : List α}, l.Nodup → ∀ {x y : α},
      List.Sublist [x, y] l → List.Sublist [y, x] l → x = y := by
  intro l
  induction l with
  | nil =>
    intro _ x y h1 _
    exact absurd (h1.subset (List.mem_cons_self x [y])) (List.not_mem_nil x)
  | cons a t ih =>
    intro h x y h1 h2
    rw [List.nodup_cons] at h
    cases h1 with
    | cons _ h1' =>
      cases h2 with
      | cons _ h2' => exact ih h.2 h1' h2'
      | cons₂ _ h2' =>
        exact absurd (h1'.subset (by simp)) h.1
    | cons₂ _ h1' =>
      cases h2 with
      | cons _ h2' =>
        exact absurd (h2'.subset (by simp)) h.1
      | cons₂ _ h2' => rfl

/-! ### Group-by lemmas -/

theorem sum_for_cover (key : Row → String) (val : Row → Nat) :
    ∀ (K : List String) (df : Table), K.Nodup → (∀ r ∈ df, key r ∈ K) →
      (K.map fun k => sum_for df key val k).sum = (df.map val).sum
  | [], df, _, hcov => by
    cases df with
    | nil => rfl
    | cons r t => exact absurd (hcov r (List.mem_cons_self r t)) (List.not_mem_nil _)
  | k :: K', df, hnd, hcov => by
    rw [List.nodup_cons] at hnd
    have hstep : ∀ k' ∈ K',
        sum_for df key val k' =
          sum_for (df.filter fun r => !(key r == k)) key val k' := by
      intro k' hk'
      have hfil : df.filter (fun r => key r == k') =
          (df.filter fun r => !(key r == k)).filter (fun r => key r == k') := by
        rw [List.filter_filter]
        apply List.filter_congr
        intro r _
        cases hr : key r == k'
        · rfl
        · have hk'k : key r = k' := eq_of_beq hr
          have hkk : (key r == k) = false := by
            rw [beq_eq_false_iff_ne, hk'k]
            intro hEq
            exact hnd.1 (hEq ▸ hk')
          rw [hkk]
          rfl
      unfold sum_for
      rw [hfil]
    have hcov' : ∀ r ∈ df.filter fun r => !(key r == k), key r ∈ K' := by
      intro r hr
      rw [List.mem_filter] at hr
      have h1 := hcov r hr.1
      rcases List.mem_cons.mp h1 with h2 | h2
      · rw [Bool.not_eq_true', beq_eq_false_iff_ne] at hr
        exact absurd h2 hr.2
      · exact h2
    rw [List.map_cons, List.sum_cons, List.map_congr_left hstep,
      sum_for_cover key val K' _ hnd.2 hcov']
    exact sum_map_filter_not (fun r => key r == k) val df

theorem distinctSorted_sorted (df : Table) (key : Row → String) :
    (distinctSorted df key).Pairwise strLeP :=
  List.sorted_insertionSort strLeP _

theorem distinctSorted_nodup (df : Table) (key : Row → String) :
    (distinctSorted df key).Nodup :=
  (List.perm_insertionSort strLeP _).nodup_iff.mpr (List.nodup_dedup _)

theorem distinctSorted_length (df : Table) (key : Row → String) :
    (distinctSorted df key).length = ((df.map key).dedup).length :=
  List.length_insertionSort _ _

theorem mem_distinctSorted {df : Table} {key : Row → String} {k : String} :
    k ∈ distinctSorted df key ↔ k ∈ (df.map key).dedup := by
  unfold distinctSorted
  rw [List.mem_insertionSort]

theorem distinctSorted_cover (df : Table) (key : Row → String) :
    ∀ r ∈ df, key r ∈ distinctSorted df key := by
  intro r hr
  rw [mem_distinctSorted, List.mem_dedup]
  exact List.mem_map_of_mem key hr

theorem group_sum_length (df : Table) (key : Row → String) (val : Row → Nat) :
    (group_sum df key val).length = ((df.map key).dedup).length := by
  unfold group_sum
  rw [List.length_map, distinctSorted_length]

theorem group_sum_fst_sorted (df : Table) (key : Row → String) (val : Row → Nat) :
    (group_sum df key val).Pairwise (fun a b => strLeP a.1 b.1) := by
  unfold group_sum
  rw [List.pairwise_map]
  exact distinctSorted_sorted df key

theorem group_sum_fst_strict (df : Table) (key : Row → String) (val : Row → Nat) :
    (group_sum df key val).Pairwise (fun a b => strLtP a.1 b.1) := by
  unfold group_sum
  rw [List.pairwise_map]
  exact ((distinctSorted_sorted df key).and (distinctSorted_nodup df key)).imp
    (fun hab => strLtP_of_strLeP_of_ne hab.1 hab.2)

theorem group_sum_sum (df : Table) (key : Row → String) (val : Row → Nat) :
    ((group_sum df key val).map Prod.snd).sum = (df.map val).sum := by
  unfold group_sum
  rw [List.map_map]
  exact sum_for_cover key val _ df (distinctSorted_nodup df key)
    (distinctSorted_cover df key)

theorem strLtP_irrefl (x : String) : ¬ strLtP x x := by
  intro h
  unfold strLtP strLt at h
  rw [lexLt_irrefl] at h
  cases h

/-- Stability of the `nlargest` model: sorting a table whose names are
strictly ascending by descending value yields a table ordered by
descending value with ties ordered by ascending name. -/
theorem insertionSort_byCallsDesc_tiebreak {g : List (String × Nat)}
    (hg : g.Pairwise fun a b => strLtP a.1 b.1) :
    (List.insertionSort byCallsDesc g).Pairwise
      (fun a b => b.2 < a.2 ∨ (a.2 = b.2 ∧ strLtP a.1 b.1)) := by
  have hasymm : ∀ x y : String × Nat, strLtP x.1 y.1 → strLtP y.1 x.1 → False :=
    fun x y h1 h2 => lexLt_asymm _ _ h1 h2
  have hnodup : g.Nodup :=
    hg.imp (fun {a b} (hab : strLtP a.1 b.1) (hEq : a = b) =>
      strLtP_irrefl b.1 (hEq ▸ hab))
  have hsorted := List.sorted_insertionSort byCallsDesc g
  have hperm := List.perm_insertionSort byCallsDesc g
  have hnodup' : (List.insertionSort byCallsDesc g).Nodup := hperm.nodup_iff.mpr hnodup
  rw [List.pairwise_iff_forall_sublist]
  intro a b hab
  have h1 : byCallsDesc a b := List.pairwise_iff_forall_sublist.mp hsorted hab
  rcases Nat.lt_or_ge b.2 a.2 with hlt | hge
  · exact Or.inl hlt
  · have heq : a.2 = b.2 := Nat.le_antisymm hge h1
    refine Or.inr ⟨heq, ?_⟩
    have hamem : a ∈ g := hperm.mem_iff.mp (hab.subset (by simp))
    have hbmem : b ∈ g := hperm.mem_iff.mp (hab.subset (by simp))
    have hne : a ≠ b := List.pairwise_iff_forall_sublist.mp hnodup' hab
    rcases lexLt_trichotomy a.1.data b.1.data with h | h | h
    · exact h
    · have hnames : g.Pairwise fun x y : String × Nat => x.1 ≠ y.1 :=
        hg.imp (fun {x y} (hxy : strLtP x.1 y.1) (hEq : x.1 = y.1) =>
          strLtP_irrefl y.1 (hEq ▸ hxy))
      have hsymm : Symmetric (fun x y : String × Nat => x.1 ≠ y.1) := by
        intro x y hxy hEq
        exact hxy hEq.symm
      have hsking : a.1 ≠ b.1 := hnames.forall hsymm hamem hbmem hne
      exact absurd (strEq_of_data_eq h) hsking
    · have hba : List.Sublist [b, a] g :=
        pair_sublist_of_pairwise hasymm g hg b a hbmem hamem h
      have hba' : List.Sublist [b, a] (List.insertionSort byCallsDesc g) :=
        List.pair_sublist_insertionSort (le_of_eq heq) hba
      exact absurd (eq_of_pair_sublists_nodup hnodup' hab hba') hne

/-! ### Filter-engine lemmas -/

theorem districtClause_eq_filter (ds : List String) (t : Table) :
    districtClause ds t =
      t.filter (fun r => ds.isEmpty || ds.contains r.district) :=
  ite_filter_or _ _ _

theorem blockClause_eq_filter (bs : List String) (t : Table) :
    blockClause bs t = t.filter (fun r => bs.isEmpty || bs.contains r.block) :=
  ite_filter_or _ _ _

theorem schoolClause_eq_filter (ss : List String) (t : Table) :
    schoolClause ss t = t.filter (fun r => ss.isEmpty || ss.contains r.school) :=
  ite_filter_or _ _ _

theorem dateClause_valid {s e : String} (h : strLe s e = true) (t : Table) :
    dateClause s e t = t.filter (inDateRange s e) := by
  have hlt : strLt e s = false := by
    unfold strLe at h
    rwa [Bool.not_eq_true'] at h
  unfold dateClause
  rw [hlt]
  rfl

theorem dateClause_invalid {s e : String} (h : strLt e s = true) (t : Table) :
    dateClause s e t = t := by
  unfold dateClause
  rw [h]
  rfl

theorem filtered_df_eq_filter (df : Table) (ds bs ss : List String)
    (s e : String) (h : strLe s e = true) :
    filtered_df df ds bs ss s e = df.filter (filterPred ds bs ss s e) := by
  unfold filtered_df
  rw [dateClause_valid h, districtClause_eq_filter, blockClause_eq_filter,
    schoolClause_eq_filter, List.filter_filter, List.filter_filter,
    List.filter_filter]
  apply List.filter_congr
  intro r _
  unfold filterPred setsPred
  cases inDateRange s e r <;>
    cases ds.isEmpty || ds.contains r.district <;>
    cases bs.isEmpty || bs.contains r.block <;>
    cases ss.isEmpty || ss.contains r.school <;>
    rfl

theorem filtered_df_invalid_range (df : Table) (ds bs ss : List String)
    (s e : String) (h : strLt e s = true) :
    filtered_df df ds bs ss s e = df.filter (setsPred ds bs ss) := by
  unfold filtered_df
  rw [dateClause_invalid h, districtClause_eq_filter, blockClause_eq_filter,
    schoolClause_eq_filter, List.filter_filter, List.filter_filter]
  apply List.filter_congr
  intro r _
  unfold setsPred
  cases ds.isEmpty || ds.contains r.district <;>
    cases bs.isEmpty || bs.contains r.block <;>
    cases ss.isEmpty || ss.contains r.school <;>
    rfl

theorem filtered_df_sublist (df : Table) (ds bs ss : List String) (s e : String) :
    List.Sublist (filtered_df df ds bs ss s e) df := by
  unfold filtered_df
  have h1 : List.Sublist (dateClause s e df) df := by
    unfold dateClause
    split
    · exact List.Sublist.refl df
    · exact List.filter_sublist df
  have h2 : List.Sublist (districtClause ds (dateClause s e df)) (dateClause s e df) := by
    rw [districtClause_eq_filter]
    exact List.filter_sublist _
  have h3 : List.Sublist (blockClause bs (districtClause ds (dateClause s e df)))
      (districtClause ds (dateClause s e df)) := by
    rw [blockClause_eq_filter]
    exact List.filter_sublist _
  have h4 : List.Sublist
      (schoolClause ss (blockClause bs (districtClause ds (dateClause s e df))))
      (blockClause bs (districtClause ds (dateClause s e df))) := by
    rw [schoolClause_eq_filter]
    exact List.filter_sublist _
  exact ((h4.trans h3).trans h2).trans h1

theorem filterLike_comm (p q : Row → Bool) (t : Table) :
    (t.filter p).filter q = (t.filter q).filter p := by
  rw [List.filter_filter, List.filter_filter]
  apply List.filter_congr
  intro r _
  exact Bool.and_comm _ _

/-! ### CSV round-trip lemmas -/

theorem digitChr_spec : ∀ d < 10, digitVal (digitChr d) = d ∧ isDigitCh (digitChr d) = true := by
  decide

theorem isDigitCh_ne_slash {c : Char} (h : isDigitCh c = true) : (c != '/') = true := by
  rw [bne_iff_ne]
  intro hEq
  subst hEq
  exact absurd h (by decide)

theorem natDigitsAux_all_digits : ∀ fuel n, (natDigitsAux fuel n).all isDigitCh = true
  | 0, _ => rfl
  | _ + 1, 0 => rfl
  | fuel + 1, n + 1 => by
    simp only [natDigitsAux]
    rw [List.all_append, natDigitsAux_all_digits fuel ((n + 1) / 10)]
    simp only [List.all_cons, List.all_nil, Bool.true_and, Bool.and_true]
    exact (digitChr_spec _ (Nat.mod_lt _ (by decide))).2

theorem natDigitsAux_ne_nil : ∀ fuel n, 0 < n → n ≤ fuel → natDigitsAux fuel n ≠ []
  | 0, _, hpos, hle => by omega
  | _ + 1, 0, hpos, _ => by omega
  | fuel + 1, n + 1, _, _ => by
    simp only [natDigitsAux]
    exact List.append_ne_nil_of_right_ne_nil _ (by simp)

theorem chrsToNat_natDigitsAux : ∀ fuel n, n ≤ fuel → ∀ a : Nat,
    List.foldl (fun acc c => 10 * acc + digitVal c) a (natDigitsAux fuel n) =
      a * 10 ^ (natDigitsAux fuel n).length + n
  | 0, 0, _, a => by simp [natDigitsAux]
  | _ + 1, 0, _, a => by simp [natDigitsAux]
  | 0, n + 1, h, _ => by omega
  | fuel + 1, n + 1, h, a => by
    have hq : (n + 1) / 10 ≤ fuel := by
      have h1 : (n + 1) / 10 < n + 1 := Nat.div_lt_self (Nat.succ_pos n) (by decide)
      omega
    simp only [natDigitsAux]
    rw [List.foldl_append, chrsToNat_natDigitsAux fuel ((n + 1) / 10) hq a,
      List.length_append]
    simp only [List.foldl_cons, List.foldl_nil, List.length_cons, List.length_nil]
    rw [(digitChr_spec _ (Nat.mod_lt _ (by decide))).1, pow_succ, ← mul_assoc]
    have hdm := Nat.div_add_mod (n + 1) 10
    generalize a * 10 ^ (natDigitsAux fuel ((n + 1) / 10)).length = P
    omega

theorem natDigits_all_digits (n : Nat) : (natDigits n).all isDigitCh = true := by
  unfold natDigits
  split
  · decide
  · exact natDigitsAux_all_digits n n

theorem natDigits_ne_nil (n : Nat) : natDigits n ≠ [] := by
  unfold natDigits
  split
  · simp
  · exact natDigitsAux_ne_nil n n (by omega) (le_refl n)

theorem parseNatChs_natDigits (n : Nat) : parseNatChs (natDigits n) = some n := by
  by_cases h : n = 0
  · subst h
    decide
  · have hne : (natDigits n).isEmpty = false := by
      cases hd : natDigits n
      · exact absurd hd (natDigits_ne_nil n)
      · rfl
    have hval := chrsToNat_natDigitsAux n n (le_refl n) 0
    unfold parseNatChs chrsToNat
    rw [hne, natDigits_all_digits]
    unfold natDigits
    rw [if_neg h]
    rw [hval]
    simp

theorem parseNatStr_natCell (n : Nat) : parseNatStr (natCell n) = some n :=
  parseNatChs_natDigits n

theorem takeWhile_digits_slash (l r : List Char) (hl : l.all isDigitCh = true) :
    (l ++ '/' :: r).takeWhile (fun c => c != '/') = l ∧
      (l ++ '/' :: r).dropWhile (fun c => c != '/') = '/' :: r := by
  induction l with
  | nil => exact ⟨rfl, rfl⟩
  | cons c cs ih =>
    rw [List.all_cons, Bool.and_eq_true] at hl
    have hc := isDigitCh_ne_slash hl.1
    have ih' := ih hl.2
    constructor
    · rw [List.cons_append, List.takeWhile_cons, hc]
      simp only [if_true]
      rw [ih'.1]
    · rw [List.cons_append, List.dropWhile_cons, hc]
      simp only [if_true]
      exact ih'.2

theorem parsePosRat_encode (num den : Nat) (hden : den ≠ 0) :
    parsePosRat (natDigits num ++ '/' :: natDigits den) =
      some ((num : ℚ) / (den : ℚ)) := by
  obtain ⟨ht, hd⟩ :=
    takeWhile_digits_slash (natDigits num) (natDigits den) (natDigits_all_digits num)
  unfold parsePosRat
  rw [ht, hd]
  simp only [List.head?_cons, List.tail_cons]
  rw [if_pos trivial, parseNatChs_natDigits num, parseNatChs_natDigits den]
  simp only [Option.some_bind]
  rw [if_neg hden]

theorem parseRatStr_ratCell (q : ℚ) : parseRatStr (ratCell q) = some q := by
  have hdata : (ratCell q).data =
      (if q.num < 0 then ['-'] else []) ++
        (natDigits q.num.natAbs ++ '/' :: natDigits q.den) := by
    unfold ratCell
    rw [List.append_assoc]
  unfold parseRatStr
  rw [hdata]
  by_cases hneg : q.num < 0
  · rw [if_pos hneg, List.singleton_append]
    simp only [List.head?_cons, List.tail_cons]
    rw [if_pos trivial, parsePosRat_encode _ _ q.den_nz]
    simp only [Option.map_some']
    congr 1
    have hna : ((q.num.natAbs : ℚ)) = -(q.num : ℚ) := by
      rw [Int.cast_natAbs, abs_of_neg hneg]
      push_cast
      rfl
    rw [hna, neg_div, neg_neg]
    exact Rat.num_div_den q
  · rw [if_neg hneg, List.nil_append]
    obtain ⟨c, cs, hcons⟩ : ∃ c cs, natDigits q.num.natAbs = c :: cs := by
      cases hd : natDigits q.num.natAbs
      · exact absurd hd (natDigits_ne_nil _)
      · exact ⟨_, _, rfl⟩
    have hcd : isDigitCh c = true := by
      have hall := natDigits_all_digits q.num.natAbs
      rw [hcons, List.all_cons, Bool.and_eq_true] at hall
      exact hall.1
    have hcnm : ¬ ((c :: (cs ++ '/' :: natDigits q.den)).head? = some '-') := by
      simp only [List.head?_cons, Option.some.injEq]
      intro hEq
      subst hEq
      exact absurd hcd (by decide)
    rw [hcons, List.cons_append, if_neg hcnm, ← List.cons_append, ← hcons,
      parsePosRat_encode _ _ q.den_nz]
    congr 1
    have hna : ((q.num.natAbs : ℚ)) = (q.num : ℚ) := by
      rw [Int.cast_natAbs, abs_of_nonneg (le_of_not_lt hneg)]
    rw [hna]
    exact Rat.num_div_den q

theorem parseRow_encodeRow (r : Row) :
    parseRow (encodeRow r) = some { r with week_start := weekStartOf r.week } := by
  simp only [parseRow, encodeRow, parseNatStr_natCell, parseRatStr_ratCell]

theorem parseRows_map_encode (df : Table) :
    parseRows (df.map encodeRow) =
      some (df.map fun r => { r with week_start := weekStartOf r.week }) := by
  induction df with
  | nil => rfl
  | cons r t ih =>
    simp only [List.map_cons, parseRows, parseRow_encodeRow, ih]

theorem load_data_csv_data (df : Table) :
    load_data (csv_data df) =
      some (df.map fun r => { r with week_start := weekStartOf r.week }) := by
  simp only [load_data, csv_data]
  rw [if_pos trivial]
  exact parseRows_map_encode df

/-! ### Claim theorems -/

theorem sum_map_eq_foldr (val : Row → Nat) :
    ∀ l : Table, (l.map val).sum = l.foldr (fun r acc => val r + acc) 0
  | [] => rfl
  | r :: t => by
    simp only [List.map_cons, List.sum_cons, List.foldr_cons,
      sum_map_eq_foldr val t]

/-- Claim C1: with a valid date range, the filtered table is exactly
the subsequence of input rows whose `week_start` lies in
`[date_start, date_end]` inclusive and which pass each
empty-or-member selection clause; as a filter of the input it keeps
the input row order (it is a sublist of the input). -/
theorem claim1_filter_semantics (df : Table) (ds bs ss : List String)
    (s e : String) (h : strLe s e = true) :
    filtered_df df ds bs ss s e =
      df.filter (fun r =>
        (strLe s r.week_start && strLe r.week_start e) &&
        ((ds.isEmpty || ds.contains r.district) &&
         (bs.isEmpty || bs.contains r.block) &&
         (ss.isEmpty || ss.contains r.school))) ∧
    List.Sublist (filtered_df df ds bs ss s e) df :=
  ⟨filtered_df_eq_filter df ds bs ss s e h, filtered_df_sublist df ds bs ss s e⟩

theorem claim1_filter_semantics_witness :
    strLe "2024-01-01" "2024-01-31" = true ∧
    (filtered_df exTable ["A"] [] [] "2024-01-01" "2024-01-31" =
      exTable.filter (fun r =>
        (strLe "2024-01-01" r.week_start && strLe r.week_start "2024-01-31") &&
        ((["A"].isEmpty || ["A"].contains r.district) &&
         (([] : List String).isEmpty || ([] : List String).contains r.block) &&
         (([] : List String).isEmpty || ([] : List String).contains r.school))) ∧
    List.Sublist (filtered_df exTable ["A"] [] [] "2024-01-01" "2024-01-31") exTable) :=
  ⟨by decide,
    claim1_filter_semantics exTable ["A"] [] [] "2024-01-01" "2024-01-31" (by decide)⟩

/-- Claim C3: when `date_start > date_end` the filter signals the
recoverable `InvalidRange` condition (the sidebar warning flag is
set), the date range is ignored, and the three set filters are still
applied unchanged. -/
theorem claim3_invalid_range (df : Table) (ds bs ss : List String)
    (s e : String) (h : strLt e s = true) :
    range_warning s e = true ∧
    filtered_df df ds bs ss s e =
      df.filter (fun r =>
        (ds.isEmpty || ds.contains r.district) &&
        (bs.isEmpty || bs.contains r.block) &&
        (ss.isEmpty || ss.contains r.school)) :=
  ⟨h, filtered_df_invalid_range df ds bs ss s e h⟩

theorem claim3_invalid_range_witness :
    strLt "2024-01-01" "2024-02-01" = true ∧
    (range_warning "2024-02-01" "2024-01-01" = true ∧
    filtered_df exTable ["A"] [] [] "2024-02-01" "2024-01-01" =
      exTable.filter (fun r =>
        ((["A"] : List String).isEmpty || ["A"].contains r.district) &&
        (([] : List String).isEmpty || ([] : List String).contains r.block) &&
        (([] : List String).isEmpty || ([] : List String).contains r.school))) :=
  ⟨by decide,
    claim3_invalid_range exTable ["A"] [] [] "2024-02-01" "2024-01-01" (by decide)⟩

/-- Claim C6: for a valid filter predicate, the filter output is a
subsequence (hence subset) of the input rows, and filtering the
already-filtered table again with the same predicate returns an
identical table. -/
theorem claim6_subset_idempotent (df : Table) (ds bs ss : List String)
    (s e : String) (h : strLe s e = true) :
    List.Sublist (filtered_df df ds bs ss s e) df ∧
    filtered_df (filtered_df df ds bs ss s e) ds bs ss s e =
      filtered_df df ds bs ss s e := by
  refine ⟨filtered_df_sublist df ds bs ss s e, ?_⟩
  rw [filtered_df_eq_filter (filtered_df df ds bs ss s e) ds bs ss s e h,
    filtered_df_eq_filter df ds bs ss s e h, List.filter_filter]
  apply List.filter_congr
  intro r _
  exact Bool.and_self _

theorem claim6_subset_idempotent_witness :
    strLe "2024-01-01" "2024-01-31" = true ∧
    (List.Sublist (filtered_df exTable ["A"] [] [] "2024-01-01" "2024-01-31") exTable ∧
    filtered_df (filtered_df exTable ["A"] [] [] "2024-01-01" "2024-01-31")
        ["A"] [] [] "2024-01-01" "2024-01-31" =
      filtered_df exTable ["A"] [] [] "2024-01-01" "2024-01-31") :=
  ⟨by decide,
    claim6_subset_idempotent exTable ["A"] [] [] "2024-01-01" "2024-01-31" (by decide)⟩

/-- Claim C10: each of the four headline KPI totals is the row-wise
integer sum of its column over the filtered rows, and on an empty
filter result every KPI total is 0 (the computation succeeds). -/
theorem claim10_kpi_totals (df : Table) (ds bs ss : List String) (s e : String) :
    total_teachers (filtered_df df ds bs ss s e) =
      (filtered_df df ds bs ss s e).foldr (fun r acc => r.teachers_registered + acc) 0 ∧
    total_baseline (filtered_df df ds bs ss s e) =
      (filtered_df df ds bs ss s e).foldr (fun r acc => r.baseline_assessments + acc) 0 ∧
    total_endline (filtered_df df ds bs ss s e) =
      (filtered_df df ds bs ss s e).foldr (fun r acc => r.endline_assessments + acc) 0 ∧
    total_tutoring (filtered_df df ds bs ss s e) =
      (filtered_df df ds bs ss s e).foldr (fun r acc => r.tutoring_calls + acc) 0 ∧
    (filtered_df df ds bs ss s e = [] →
      total_teachers (filtered_df df ds bs ss s e) = 0 ∧
      total_baseline (filtered_df df ds bs ss s e) = 0 ∧
      total_endline (filtered_df df ds bs ss s e) = 0 ∧
      total_tutoring (filtered_df df ds bs ss s e) = 0) := by
  refine ⟨sum_map_eq_foldr _ _, sum_map_eq_foldr _ _, sum_map_eq_foldr _ _,
    sum_map_eq_foldr _ _, ?_⟩
  intro h
  rw [h]
  exact ⟨rfl, rfl, rfl, rfl⟩

theorem claim10_kpi_totals_witness :
    filtered_df exTable ["Z"] [] [] "2024-01-01" "2024-01-31" = [] ∧
    (total_teachers (filtered_df exTable ["Z"] [] [] "2024-01-01" "2024-01-31") = 0 ∧
    total_baseline (filtered_df exTable ["Z"] [] [] "2024-01-01" "2024-01-31") = 0 ∧
    total_endline (filtered_df exTable ["Z"] [] [] "2024-01-01" "2024-01-31") = 0 ∧
    total_tutoring (filtered_df exTable ["Z"] [] [] "2024-01-01" "2024-01-31") = 0) :=
  ⟨by decide,
    (claim10_kpi_totals exTable ["Z"] [] [] "2024-01-01" "2024-01-31").2.2.2.2
      (by decide)⟩

/-- Claim C5: each weekly sum aggregation has one output row per
distinct `week_start` value, is sorted ascending by `week_start`, and
its summed column totals to the input column's total. -/
theorem claim5_weekly_sums (df : Table) :
    (weekly_teachers df).length = ((df.map (·.week_start)).dedup).length ∧
    (weekly_teachers df).Pairwise (fun a b => strLeP a.1 b.1) ∧
    ((weekly_teachers df).map Prod.snd).sum =
      (df.map (·.teachers_registered)).sum ∧
    (weekly_tutoring_calls df).length = ((df.map (·.week_start)).dedup).length ∧
    (weekly_tutoring_calls df).Pairwise (fun a b => strLeP a.1 b.1) ∧
    ((weekly_tutoring_calls df).map Prod.snd).sum =
      (df.map (·.tutoring_calls)).sum :=
  ⟨group_sum_length df _ _, group_sum_fst_sorted df _ _, group_sum_sum df _ _,
   group_sum_length df _ _, group_sum_fst_sorted df _ _, group_sum_sum df _ _⟩

/-- Claim C7: exporting a table to the CSV format and re-loading it
through the loader reproduces every row with the same value in every
source column; only the derived `week_start` column is recomputed from
the week string, so a table whose `week_start` values are consistent
with their week strings (as every loader-produced table is) reloads
identically. -/
theorem claim7_round_trip (df : Table) :
    load_data (csv_data df) =
      some (df.map fun r => { r with week_start := weekStartOf r.week }) ∧
    ((∀ r ∈ df, r.week_start = weekStartOf r.week) →
      load_data (csv_data df) = some df) := by
  refine ⟨load_data_csv_data df, fun hw => ?_⟩
  rw [load_data_csv_data df]
  congr 1
  calc df.map (fun r => { r with week_start := weekStartOf r.week })
      = df.map id := List.map_congr_left (fun r hr => by rw [← hw r hr]; exact rfl)
    _ = df := List.map_id df

theorem claim7_round_trip_witness :
    (∀ r ∈ exTable, r.week_start = weekStartOf r.week) ∧
    load_data (csv_data exTable) = some exTable :=
  ⟨by decide, (claim7_round_trip exTable).2 (by decide)⟩

/-- Claim C9: the four filter clauses are row-wise filters on
independent columns, so folding them over the table in any order
produces the same result as the code's fixed order (date, district,
block, school), i.e. the same table as `filtered_df`. -/
theorem claim9_clause_order (df : Table) (ds bs ss : List String)
    (s e : String) (cs : List (Table → Table)) (h : strLe s e = true)
    (hp : List.Perm cs
      [dateClause s e, districtClause ds, blockClause bs, schoolClause ss]) :
    cs.foldl (fun t c => c t) df = filtered_df df ds bs ss s e := by
  have hfl : ∀ c ∈ cs, ∃ p : Row → Bool, ∀ t : Table, c t = t.filter p := by
    intro c hc
    have hc' := hp.subset hc
    simp only [List.mem_cons, List.not_mem_nil, or_false] at hc'
    rcases hc' with rfl | rfl | rfl | rfl
    · exact ⟨inDateRange s e, fun t => dateClause_valid h t⟩
    · exact ⟨_, fun t => districtClause_eq_filter ds t⟩
    · exact ⟨_, fun t => blockClause_eq_filter bs t⟩
    · exact ⟨_, fun t => schoolClause_eq_filter ss t⟩
  have hcomm : ∀ x ∈ cs, ∀ y ∈ cs, ∀ z : Table, y (x z) = x (y z) := by
    intro x hx y hy z
    obtain ⟨px, hpx⟩ := hfl x hx
    obtain ⟨py, hpy⟩ := hfl y hy
    rw [hpx, hpy, hpx, hpy, filterLike_comm]
  rw [List.Perm.foldl_eq' hp hcomm df]
  rfl

theorem claim9_clause_order_witness :
    strLe "2024-01-01" "2024-01-31" = true ∧
    List.Perm
      [districtClause ["A"], dateClause "2024-01-01" "2024-01-31",
        blockClause [], schoolClause []]
      [dateClause "2024-01-01" "2024-01-31", districtClause ["A"],
        blockClause [], schoolClause []] ∧
    List.foldl (fun t c => c t) exTable
        [districtClause ["A"], dateClause "2024-01-01" "2024-01-31",
          blockClause [], schoolClause []] =
      filtered_df exTable ["A"] [] [] "2024-01-01" "2024-01-31" :=
  ⟨by decide, List.Perm.swap _ _ _,
    claim9_clause_order exTable ["A"] [] [] "2024-01-01" "2024-01-31" _
      (by decide) (List.Perm.swap _ _ _)⟩

/-- Claim C4: on a table with at least ten distinct schools, the
top-10-schools ranking has exactly ten rows, is sorted ascending by
summed calls (largest last), every row is one of the school groups,
every returned school's sum is at least every excluded school's sum,
and a tie at the boundary is broken in favour of the lexicographically
smaller school name. -/
theorem claim4_top_schools (df : Table)
    (h : 10 ≤ ((df.map (·.school)).dedup).length) :
    (top_schools_tutoring df).length = 10 ∧
    (top_schools_tutoring df).Pairwise (fun a b => a.2 ≤ b.2) ∧
    (∀ y ∈ top_schools_tutoring df,
      y ∈ group_sum df (·.school) (·.tutoring_calls)) ∧
    (∀ y ∈ top_schools_tutoring df,
      ∀ x ∈ group_sum df (·.school) (·.tutoring_calls),
        x ∉ top_schools_tutoring df →
          x.2 ≤ y.2 ∧ (x.2 = y.2 → strLtP y.1 x.1)) := by
  have htop : top_schools_tutoring df =
      List.insertionSort byCallsAsc
        ((List.insertionSort byCallsDesc
          (group_sum df (·.school) (·.tutoring_calls))).take 10) := rfl
  refine ⟨?_, ?_, ?_, ?_⟩
  · rw [htop, List.length_insertionSort, List.length_take,
      List.length_insertionSort, group_sum_length]
    exact Nat.min_eq_left h
  · rw [htop]
    exact List.sorted_insertionSort byCallsAsc _
  · intro y hy
    rw [htop] at hy
    have hy' := (List.take_sublist _ _).subset ((List.mem_insertionSort _).mp hy)
    exact (List.mem_insertionSort _).mp hy'
  · intro y hy x hx hxn
    rw [htop] at hy hxn
    have hy' : y ∈ (List.insertionSort byCallsDesc
        (group_sum df (·.school) (·.tutoring_calls))).take 10 :=
      (List.mem_insertionSort _).mp hy
    have hx' : x ∈ List.insertionSort byCallsDesc
        (group_sum df (·.school) (·.tutoring_calls)) :=
      (List.mem_insertionSort _).mpr hx
    have hxn' : x ∉ (List.insertionSort byCallsDesc
        (group_sum df (·.school) (·.tutoring_calls))).take 10 :=
      fun hc => hxn ((List.mem_insertionSort _).mpr hc)
    have hxdrop : x ∈ (List.insertionSort byCallsDesc
        (group_sum df (·.school) (·.tutoring_calls))).drop 10 := by
      have hx'' : x ∈ (List.insertionSort byCallsDesc
          (group_sum df (·.school) (·.tutoring_calls))).take 10 ++
            (List.insertionSort byCallsDesc
              (group_sum df (·.school) (·.tutoring_calls))).drop 10 := by
        rw [List.take_append_drop]
        exact hx'
      rcases List.mem_append.mp hx'' with h1 | h1
      · exact absurd h1 hxn'
      · exact h1
    have hstab := insertionSort_byCallsDesc_tiebreak
      (group_sum_fst_strict df (·.school) (·.tutoring_calls))
    have hrel := List.Sorted.rel_of_mem_take_of_mem_drop hstab hy' hxdrop
    rcases hrel with hlt | hpair
    · refine ⟨Nat.le_of_lt hlt, fun hEq => ?_⟩
      rw [hEq] at hlt
      exact absurd hlt (lt_irrefl _)
    · exact ⟨Nat.le_of_eq hpair.1.symm, fun _ => hpair.2⟩

theorem claim4_top_schools_witness :
    10 ≤ ((exTen.map (·.school)).dedup).length ∧
    ((top_schools_tutoring exTen).length = 10 ∧
     (top_schools_tutoring exTen).Pairwise (fun a b => a.2 ≤ b.2) ∧
     (∀ y ∈ top_schools_tutoring exTen,
       y ∈ group_sum exTen (·.school) (·.tutoring_calls)) ∧
     (∀ y ∈ top_schools_tutoring exTen,
       ∀ x ∈ group_sum exTen (·.school) (·.tutoring_calls),
         x ∉ top_schools_tutoring exTen →
           x.2 ≤ y.2 ∧ (x.2 = y.2 → strLtP y.1 x.1))) :=
  ⟨by decide, claim4_top_schools exTen (by decide)⟩

/-- Claim C8: the School branch of the learning-level comparison keeps
only `nlargest(20, baseline mean)` — at most twenty school groups,
each a genuine group, every kept group's baseline mean at least every
omitted group's — while the District and Block branches keep every
group. -/
theorem claim8_school_top20 (df : Table) :
    (level_df_school df).length = min 20 ((df.map (·.school)).dedup).length ∧
    (∀ y ∈ level_df_school df, y ∈ level_by df (·.school)) ∧
    (∀ y ∈ level_df_school df, ∀ x ∈ level_by df (·.school),
      x ∉ level_df_school df → x.2.1 ≤ y.2.1) ∧
    (level_df_district df).length = ((df.map (·.district)).dedup).length ∧
    (level_df_block df).length = ((df.map (·.block)).dedup).length := by
  have hlenlb : ∀ key : Row → String,
      (level_by df key).length = ((df.map key).dedup).length := by
    intro key
    unfold level_by
    rw [List.length_map, distinctSorted_length]
  refine ⟨?_, ?_, ?_, hlenlb _, hlenlb _⟩
  · unfold level_df_school
    rw [List.length_take, List.length_insertionSort, hlenlb]
  · intro y hy
    unfold level_df_school at hy
    exact (List.mem_insertionSort _).mp ((List.take_sublist _ _).subset hy)
  · intro y hy x hx hxn
    unfold level_df_school at hy hxn
    have hx' : x ∈ List.insertionSort byBaselineDesc (level_by df (·.school)) :=
      (List.mem_insertionSort _).mpr hx
    have hxdrop : x ∈ (List.insertionSort byBaselineDesc
        (level_by df (·.school))).drop 20 := by
      have hx'' : x ∈ (List.insertionSort byBaselineDesc
          (level_by df (·.school))).take 20 ++
            (List.insertionSort byBaselineDesc (level_by df (·.school))).drop 20 := by
        rw [List.take_append_drop]
        exact hx'
      rcases List.mem_append.mp hx'' with h1 | h1
      · exact absurd h1 hxn
      · exact h1
    exact List.Sorted.rel_of_mem_take_of_mem_drop
      (List.sorted_insertionSort byBaselineDesc _) hy hxdrop

theorem claim8_school_top20_witness :
    (level_df_district exTable).length = ((exTable.map (·.district)).dedup).length :=
  (claim8_school_top20 exTable).2.2.2.1

/-- Claim C2 counterexample: in the pivot-table explorer on `exPivot`
the combination (district "A", block "Y") matches no row; the
combination is present in the matrix shape but its cell is NaN
(`none`), not 0, because `pd.pivot_table` is called without a
`fill_value`. -/
theorem claim2_counterexample :
    pivot_data exPivot (·.district) (·.block) (·.teachers_registered) =
      [("A", [("X", some 5), ("Y", none)]),
       ("B", [("X", none), ("Y", some 7)])] ∧
    pivot_cell exPivot (·.district) (·.block) (·.teachers_registered) "A" "Y" ≠
      some 0 := by
  decide

/-- Claim C2 amended: every combination of a distinct row-field value
and a distinct column-field value is present in the pivot matrix; its
cell is the sum of the value field over exactly the matching rows when
at least one row matches, and is null (NaN) — not 0 — when no row
matches. -/
theorem claim2_pivot_amended (df : Table) (rowF colF : Row → String)
    (valF : Row → Nat) (r c : String)
    (hr : r ∈ (df.map rowF).dedup) (hc : c ∈ (df.map colF).dedup) :
    ∃ rowEntry ∈ pivot_data df rowF colF valF, rowEntry.1 = r ∧
      ∃ cellEntry ∈ rowEntry.2, cellEntry.1 = c ∧
        cellEntry.2 =
          (if (df.filter fun x => rowF x == r && colF x == c).isEmpty then none
           else some
             (((df.filter fun x => rowF x == r && colF x == c).map valF).sum)) := by
  refine ⟨(r, (distinctSorted df colF).map
      fun c' => (c', pivot_cell df rowF colF valF r c')), ?_, rfl,
    (c, pivot_cell df rowF colF valF r c), ?_, rfl, rfl⟩
  · unfold pivot_data
    exact List.mem_map_of_mem _ (mem_distinctSorted.mpr hr)
  · exact List.mem_map_of_mem _ (mem_distinctSorted.mpr hc)

theorem claim2_pivot_amended_witness :
    ("A" ∈ (exPivot.map (·.district)).dedup ∧
      "Y" ∈ (exPivot.map (·.block)).dedup) ∧
    (∃ rowEntry ∈ pivot_data exPivot (·.district) (·.block) (·.teachers_registered),
      rowEntry.1 = "A" ∧
      ∃ cellEntry ∈ rowEntry.2, cellEntry.1 = "Y" ∧
        cellEntry.2 =
          (if (exPivot.filter fun x => x.district == "A" && x.block == "Y").isEmpty
           then none
           else some
             (((exPivot.filter fun x => x.district == "A" && x.block == "Y").map
               (·.teachers_registered)).sum))) :=
  ⟨⟨by decide, by decide⟩,
    claim2_pivot_amended exPivot (·.district) (·.block) (·.teachers_registered)
      "A" "Y" (by decide) (by decide)⟩
